import Mathlib

set_option maxRecDepth 8000

/-!
Verification development for the BaseSplit web client.

The definitions below are a shallow embedding of the client's core logic:
the amount-validation helper (`src/lib/validation.ts`), the remote query
layer (`src/lib/supabase/queries.ts`), the local cache helper
(`src/lib/cache.ts`), the request orchestration in `RequestsTab.tsx`
(`cancelRequest`, `allHistory`, `createPaymentRequest`,
`setCachedRequests`), the contact-loading cache write in `ContactsTab.tsx`,
and the payment-confirmation effect in `app/page.tsx`.

JavaScript numbers are modelled as exact rationals (`Rat`), JS `undefined` /
`null` as `Option`, and the falsiness of the empty string is modelled
explicitly (`strTruthy`). Asynchronous orchestration is modelled as pure
functions from inputs and remote responses to the outputs and the list of
remote calls issued, with each effect-handler run taken as atomic (the
client is single-threaded and event-loop driven).
-/

namespace BaseSplit

/-! ## JavaScript string and number primitives -/

/-- JS StrWhiteSpaceChar: the characters `String.prototype.trim` and
`parseFloat` skip (WhiteSpace and LineTerminator code points). -/
def jsStrWhite (c : Char) : Bool :=
  c = ' ' || c = '\t' || c = '\n' || c = '\r' ||
  c.toNat = 11 || c.toNat = 12 || c.toNat = 160 || c.toNat = 5760 ||
  (8192 ≤ c.toNat && c.toNat ≤ 8202) || c.toNat = 8232 || c.toNat = 8233 ||
  c.toNat = 8239 || c.toNat = 8287 || c.toNat = 12288 || c.toNat = 65279

/-- JS `String.prototype.trim`: strip leading and trailing whitespace. -/
def jsTrim (s : String) : String :=
  ⟨((s.data.dropWhile jsStrWhite).reverse.dropWhile jsStrWhite).reverse⟩

/-- JS string truthiness for an optional string: `undefined`, `null` and
`""` are falsy, every other string is truthy. -/
def strTruthy : Option String → Bool
  | none => false
  | some s => s ≠ ""

/-- JS `a || b` on optional strings: `b` when `a` is falsy. -/
def jsOrElse (a b : Option String) : Option String :=
  if strTruthy a then a else b

/-- JS `String.prototype.toLowerCase` restricted to the ASCII letters the
application's hex wallet addresses use. -/
def jsToLower (s : String) : String := s.map Char.toLower

/-- JS `String.prototype.startsWith`. -/
def jsStartsWith (s p : String) : Bool := p.data.isPrefixOf s.data

/-- The value a JS number can take as `parseFloat` returns it: NaN, a signed
infinity, or a finite value (modelled as an exact rational). -/
inductive JsNum where
  | nan : JsNum
  | inf (neg : Bool) : JsNum
  | num (q : Rat) : JsNum
deriving DecidableEq

def digitVal (c : Char) : Nat := c.toNat - '0'.toNat

def natOfDigits (ds : List Char) : Nat :=
  ds.foldl (fun a c => 10 * a + digitVal c) 0

def tenPow (n : Nat) : Rat := (10 : Rat) ^ n

/-- Scale a mantissa by a decimal exponent. -/
def applyExp (q : Rat) (e : Int) : Rat :=
  if 0 ≤ e then q * tenPow e.toNat else q / tenPow (-e).toNat

/-- The exponent part of a StrDecimalLiteral (`e`/`E`, optional sign,
digits); `0` when no well-formed exponent follows, since `parseFloat` then
stops before the `e`. -/
def parseExponent (cs : List Char) : Int :=
  match cs with
  | c :: rest =>
    if c = 'e' || c = 'E' then
      match rest with
      | '+' :: r2 =>
        if (r2.takeWhile Char.isDigit).isEmpty then 0
        else (natOfDigits (r2.takeWhile Char.isDigit) : Int)
      | '-' :: r2 =>
        if (r2.takeWhile Char.isDigit).isEmpty then 0
        else -(natOfDigits (r2.takeWhile Char.isDigit) : Int)
      | r2 =>
        if (r2.takeWhile Char.isDigit).isEmpty then 0
        else (natOfDigits (r2.takeWhile Char.isDigit) : Int)
    else 0
  | [] => 0

/-- The unsigned decimal mantissa with its exponent: the longest prefix of
`cs` of the form `digits [. digits] [exponent]` or `. digits [exponent]`;
`none` when no prefix is a number (then `parseFloat` yields NaN). -/
def parseMantissa (cs : List Char) : Option Rat :=
  let ds := cs.takeWhile Char.isDigit
  let rest := cs.dropWhile Char.isDigit
  match rest with
  | '.' :: rest2 =>
    let fs := rest2.takeWhile Char.isDigit
    let rest3 := rest2.dropWhile Char.isDigit
    if ds.isEmpty && fs.isEmpty then none
    else some (applyExp ((natOfDigits ds : Rat) + (natOfDigits fs : Rat) / tenPow fs.length)
      (parseExponent rest3))
  | _ =>
    if ds.isEmpty then none
    else some (applyExp (natOfDigits ds : Rat) (parseExponent rest))

/-- The part of `parseFloat` after the optional sign: the literal `Infinity`
or a decimal mantissa. -/
def parseUnsignedJs (cs : List Char) (neg : Bool) : JsNum :=
  if "Infinity".data.isPrefixOf cs then JsNum.inf neg
  else
    match parseMantissa cs with
    | some q => JsNum.num (if neg then -q else q)
    | none => JsNum.nan

/-- JS `parseFloat`: skip leading whitespace, read an optional sign, then
the longest numeric prefix; NaN when there is none. -/
def parseFloatJs (s : String) : JsNum :=
  match s.data.dropWhile jsStrWhite with
  | '+' :: rest => parseUnsignedJs rest false
  | '-' :: rest => parseUnsignedJs rest true
  | cs => parseUnsignedJs cs false

/-- The JS comparison `x < m` for a parsed number against a finite bound
(`NaN < m` is false, `-Infinity < m` is true). -/
def jsNumLtRat : JsNum → Rat → Bool
  | JsNum.nan, _ => false
  | JsNum.inf neg, _ => neg
  | JsNum.num q, m => decide (q < m)

/-- The JS comparison `x > m` for a parsed number against a finite bound. -/
def jsNumGtRat : JsNum → Rat → Bool
  | JsNum.nan, _ => false
  | JsNum.inf neg, _ => !neg
  | JsNum.num q, m => decide (m < q)

/-- The rational value of a finite parsed number. -/
def jsNumToRat : JsNum → Rat
  | JsNum.num q => q
  | _ => 0

/-! ## JS number formatting (`toFixed(2)`, `toLocaleString()`) -/

/-- Floor of a rational as JS `Math.floor` computes it. -/
def ratFloor (q : Rat) : Int := Int.fdiv q.num (q.den : Int)

/-- JS `Number.prototype.toFixed(2)`: round to two decimals, half away
from the smaller neighbour, and render with exactly two fraction digits. -/
def numToFixed2 (q : Rat) : String :=
  let n : Int := ratFloor (q * 100 + 1 / 2)
  let sign := if n < 0 then "-" else ""
  let m := n.natAbs
  sign ++ toString (m / 100) ++ "." ++ (if m % 100 < 10 then "0" else "") ++ toString (m % 100)

/-- Thousands grouping over a reversed digit list: after every third digit
that is followed by more digits, insert a comma. -/
def groupRev : List Char → Nat → List Char
  | [], _ => []
  | c :: rest, k =>
    if k = 2 && !rest.isEmpty then c :: ',' :: groupRev rest 0
    else c :: groupRev rest (k + 1)

/-- A natural number with `,` thousands separators (en-US grouping). -/
def commaGroupNat (n : Nat) : String :=
  ⟨(groupRev (toString n).data.reverse 0).reverse⟩

/-- Up to three fraction digits with trailing zeros removed. -/
def frac3String (f : Nat) : String :=
  let ds := (if f < 10 then "00" else if f < 100 then "0" else "") ++ toString f
  ⟨ds.data.reverse.dropWhile (fun c => c = '0') |>.reverse⟩

/-- JS `Number.prototype.toLocaleString()` under the en-US default locale:
thousands separators and at most three rounded fraction digits. -/
def numToLocaleString (q : Rat) : String :=
  let sign := if q < 0 then "-" else ""
  let n3 := (ratFloor (|q| * 1000 + 1 / 2)).toNat
  let intPart := commaGroupNat (n3 / 1000)
  let frac := n3 % 1000
  sign ++ intPart ++ (if frac = 0 then "" else "." ++ frac3String frac)

/-! ## Validation helper (`validateUSDCAmount`, src/lib/validation.ts) -/

structure AmountValidationResult where
  isValid : Bool
  error : Option String
  amount : Rat
deriving DecidableEq

/-- Default minimum amount of `validateUSDCAmount` (0.01 USDC). -/
def defaultMinAmount : Rat := 1 / 100

/-- Default maximum amount of `validateUSDCAmount` (10000 USDC). -/
def defaultMaxAmount : Rat := 10000

/-- `validateUSDCAmount(amountStr, minAmount, maxAmount)`: trim, reject the
empty string, parse with `parseFloat`, then check the bounds. -/
def validateUSDCAmount (amountStr : String) (minAmount maxAmount : Rat) :
    AmountValidationResult :=
  let trimmed := jsTrim amountStr
  if trimmed = "" then
    ⟨false, some "Please enter an amount", 0⟩
  else
    let amount := parseFloatJs trimmed
    if amount = JsNum.nan ∨ jsNumLtRat amount minAmount = true then
      ⟨false, some ("Minimum amount is $" ++ numToFixed2 minAmount ++ " USDC"), 0⟩
    else if jsNumGtRat amount maxAmount = true then
      ⟨false, some ("Maximum amount is $" ++ numToLocaleString maxAmount ++ " USDC"), 0⟩
    else
      ⟨true, none, jsNumToRat amount⟩

/-- The default minimum renders as `0.01` in the minimum-amount message. -/
theorem numToFixed2_defaultMin : numToFixed2 defaultMinAmount = "0.01" := by
  with_unfolding_all rfl

/-- The default maximum renders as `10,000` in the maximum-amount message. -/
theorem numToLocaleString_defaultMax : numToLocaleString defaultMaxAmount = "10,000" := by
  with_unfolding_all rfl

/-- C1: with the default bounds (minimum 0.01, maximum 10000),
`validateUSDCAmount` is invalid exactly on empty/whitespace input, input
whose `parseFloat` is NaN, or input parsing below the minimum or above the
maximum; a valid input's returned amount is the parsed value, and the error
message is "Please enter an amount" on empty/whitespace input, the
minimum-amount message on non-numeric or below-minimum input, and the
maximum-amount message on above-maximum input. -/
theorem validateUSDCAmount_default_spec (s : String) :
    ((validateUSDCAmount s defaultMinAmount defaultMaxAmount).isValid = false ↔
      (jsTrim s = "" ∨ parseFloatJs (jsTrim s) = JsNum.nan ∨
        jsNumLtRat (parseFloatJs (jsTrim s)) defaultMinAmount = true ∨
        jsNumGtRat (parseFloatJs (jsTrim s)) defaultMaxAmount = true)) ∧
    (∀ q : Rat, parseFloatJs (jsTrim s) = JsNum.num q →
      (validateUSDCAmount s defaultMinAmount defaultMaxAmount).isValid = true →
      (validateUSDCAmount s defaultMinAmount defaultMaxAmount).amount = q) ∧
    (jsTrim s = "" →
      (validateUSDCAmount s defaultMinAmount defaultMaxAmount).error =
        some "Please enter an amount") ∧
    (jsTrim s ≠ "" →
      (parseFloatJs (jsTrim s) = JsNum.nan ∨
        jsNumLtRat (parseFloatJs (jsTrim s)) defaultMinAmount = true) →
      (validateUSDCAmount s defaultMinAmount defaultMaxAmount).error =
        some "Minimum amount is $0.01 USDC") ∧
    (jsTrim s ≠ "" → parseFloatJs (jsTrim s) ≠ JsNum.nan →
      jsNumLtRat (parseFloatJs (jsTrim s)) defaultMinAmount = false →
      jsNumGtRat (parseFloatJs (jsTrim s)) defaultMaxAmount = true →
      (validateUSDCAmount s defaultMinAmount defaultMaxAmount).error =
        some "Maximum amount is $10,000 USDC") := by
  by_cases h1 : jsTrim s = ""
  · have hres : validateUSDCAmount s defaultMinAmount defaultMaxAmount =
        ⟨false, some "Please enter an amount", 0⟩ := by
      simp [validateUSDCAmount, h1]
    rw [hres]
    simp [h1]
  · by_cases h2 : parseFloatJs (jsTrim s) = JsNum.nan ∨
        jsNumLtRat (parseFloatJs (jsTrim s)) defaultMinAmount = true
    · have hres : validateUSDCAmount s defaultMinAmount defaultMaxAmount =
          ⟨false, some "Minimum amount is $0.01 USDC", 0⟩ := by
        simp [validateUSDCAmount, h1, h2, numToFixed2_defaultMin]
      rw [hres]
      refine ⟨?_, ?_, fun h => absurd h h1, fun _ _ => rfl, fun _ h3 _ _ => ?_⟩
      · exact iff_of_true rfl (Or.inr (h2.imp id Or.inl))
      · intro q hq hvalid
        exact absurd hvalid (by simp)
      · rcases h2 with h2 | h2
        · exact absurd h2 h3
        · simp_all
    · push_neg at h2
      obtain ⟨h2a, h2b⟩ := h2
      have h2b' : jsNumLtRat (parseFloatJs (jsTrim s)) defaultMinAmount = false :=
        Bool.not_eq_true _ ▸ eq_false_of_ne_true h2b
      by_cases h3 : jsNumGtRat (parseFloatJs (jsTrim s)) defaultMaxAmount = true
      · have hres : validateUSDCAmount s defaultMinAmount defaultMaxAmount =
            ⟨false, some "Maximum amount is $10,000 USDC", 0⟩ := by
          simp [validateUSDCAmount, h1, h2a, h2b', h3, numToLocaleString_defaultMax]
        rw [hres]
        refine ⟨?_, ?_, fun h => absurd h h1, fun _ hmin => ?_, fun _ _ _ _ => rfl⟩
        · exact iff_of_true rfl (Or.inr (Or.inr (Or.inr h3)))
        · intro q hq hvalid
          exact absurd hvalid (by simp)
        · rcases hmin with hmin | hmin
          · exact absurd hmin h2a
          · simp [hmin] at h2b'
      · have h3' : jsNumGtRat (parseFloatJs (jsTrim s)) defaultMaxAmount = false :=
          Bool.not_eq_true _ ▸ eq_false_of_ne_true h3
        have hres : validateUSDCAmount s defaultMinAmount defaultMaxAmount =
            ⟨true, none, jsNumToRat (parseFloatJs (jsTrim s))⟩ := by
          simp [validateUSDCAmount, h1, h2a, h2b', h3']
        rw [hres]
        refine ⟨?_, ?_, fun h => absurd h h1, fun _ hmin => ?_, fun _ _ _ hgt => ?_⟩
        · simp [h1, h2a, h2b', h3']
        · intro q hq _
          simp [jsNumToRat, hq]
        · rcases hmin with hmin | hmin
          · exact absurd hmin h2a
          · simp [hmin] at h2b'
        · simp [hgt] at h3'

/-! ## Data model (src/lib/supabase/queries.ts) -/

inductive HistoryFilterType where
  | all : HistoryFilterType
  | contactsOnly : HistoryFilterType
  | externalOnly : HistoryFilterType
deriving DecidableEq

structure Profile where
  id : String
  wallet_address : String
  created_at : String
  last_seen_at : String
  history_filter_default : HistoryFilterType
deriving DecidableEq

structure Contact where
  id : String
  owner_id : String
  contact_wallet_address : String
  label : String
  note : Option String
  created_at : String
  updated_at : String
deriving DecidableEq

inductive PaymentRequestType where
  | request : PaymentRequestType
  | transfer : PaymentRequestType
deriving DecidableEq

inductive Status where
  | pending : Status
  | paid : Status
  | cancelled : Status
  | rejected : Status
  | expired : Status
deriving DecidableEq

/-- A `payment_requests` row as the client reads it; `profiles` is the
requester's `wallet_address` joined in by the list queries. -/
structure PaymentRequest where
  id : String
  requester_id : String
  type : PaymentRequestType
  payer_wallet_address : String
  token_address : String
  chain_id : Int
  amount : Int
  memo : Option String
  status : Status
  tx_hash : Option String
  expires_at : Option String
  paid_at : Option String
  created_at : String
  updated_at : String
  profiles : Option String
deriving DecidableEq

/-! ## Remote query layer (src/lib/supabase/queries.ts)

Each query function is split into its pure parts: the filter value or the
insert/update payload it sends (built before the network call), and the
mapping from the backend's response to the `QueryResult` it returns. -/

/-- The uniform result shape `{ data, error, errorCode }`. -/
structure QueryResult (α : Type) where
  data : Option α
  error : Option String
  errorCode : Option String
deriving DecidableEq

/-- A backend (PostgREST) error: message and code. -/
structure SbError where
  message : String
  code : String
deriving DecidableEq

/-- A backend response as the supabase client destructures it. -/
structure SbResp (α : Type) where
  data : Option α
  error : Option SbError
deriving DecidableEq

/-- `POSTGREST_ERRORS.NO_ROWS_RETURNED` (src/lib/errors.ts). -/
def NO_ROWS_RETURNED : String := "PGRST116"

/-- `isNoRowsError` (src/lib/errors.ts). -/
def isNoRowsError (errorCode : Option String) : Bool :=
  errorCode = some NO_ROWS_RETURNED

/-- `getProfileByWallet`: the `eq("wallet_address", _)` filter value. -/
def getProfileByWalletFilter (walletAddress : String) : String :=
  jsToLower walletAddress

/-- `getProfileByWallet`: the result built from the backend response
(a no-rows error is expected for new users and is not an error). -/
def getProfileByWalletResult (resp : SbResp Profile) : QueryResult Profile :=
  match resp.error with
  | some e =>
    if isNoRowsError (some e.code) then ⟨none, none, none⟩
    else ⟨none, some e.message, some e.code⟩
  | none => ⟨resp.data, none, none⟩

/-- `getProfileIdByWallet`: the `eq("wallet_address", _)` filter value. -/
def getProfileIdByWalletFilter (walletAddress : String) : String :=
  jsToLower walletAddress

/-- `getProfileIdByWallet`: the result built from the backend response
(the selected `id` column is a string). -/
def getProfileIdByWalletResult (resp : SbResp String) : QueryResult String :=
  match resp.error with
  | some e =>
    if isNoRowsError (some e.code) then ⟨none, none, none⟩
    else ⟨none, some e.message, some e.code⟩
  | none => ⟨resp.data, none, none⟩

/-- `getContactsByOwnerId`: the result built from the backend response
(`data || []`). -/
def getContactsByOwnerIdResult (resp : SbResp (List Contact)) : QueryResult (List Contact) :=
  match resp.error with
  | some e => ⟨none, some e.message, some e.code⟩
  | none => ⟨some (resp.data.getD []), none, none⟩

structure CreateContactParams where
  ownerId : String
  contactWalletAddress : String
  label : String
  note : Option String
deriving DecidableEq

/-- The row `createContact` inserts. -/
structure ContactInsertRow where
  owner_id : String
  contact_wallet_address : String
  label : String
  note : Option String
deriving DecidableEq

/-- `createContact`: the insert payload (the address is lowercased, the
note falls back to `null` through `params.note || null`). -/
def createContactRow (params : CreateContactParams) : ContactInsertRow :=
  { owner_id := params.ownerId
    contact_wallet_address := jsToLower params.contactWalletAddress
    label := params.label
    note := if strTruthy params.note then params.note else none }

/-- `createContact`: the result built from the backend response. -/
def createContactResult (resp : SbResp Contact) : QueryResult Contact :=
  match resp.error with
  | some e => ⟨none, some e.message, some e.code⟩
  | none => ⟨resp.data, none, none⟩

/-- `deleteContact`: the result built from the backend response (only the
error is destructured; `data` is always `null`). -/
def deleteContactResult (error : Option SbError) : QueryResult Unit :=
  match error with
  | some e => ⟨none, some e.message, some e.code⟩
  | none => ⟨none, none, none⟩

/-- `getIncomingPaymentRequests`: the `eq("payer_wallet_address", _)`
filter value. -/
def getIncomingPaymentRequestsFilter (payerWalletAddress : String) : String :=
  jsToLower payerWalletAddress

/-- `getIncomingPaymentRequests`: the result built from the response. -/
def getIncomingPaymentRequestsResult (resp : SbResp (List PaymentRequest)) :
    QueryResult (List PaymentRequest) :=
  match resp.error with
  | some e => ⟨none, some e.message, some e.code⟩
  | none => ⟨some (resp.data.getD []), none, none⟩

/-- `getSentPaymentRequests`: the result built from the response. -/
def getSentPaymentRequestsResult (resp : SbResp (List PaymentRequest)) :
    QueryResult (List PaymentRequest) :=
  match resp.error with
  | some e => ⟨none, some e.message, some e.code⟩
  | none => ⟨some (resp.data.getD []), none, none⟩

/-- `getSentTransfers`: the result built from the response. -/
def getSentTransfersResult (resp : SbResp (List PaymentRequest)) :
    QueryResult (List PaymentRequest) :=
  match resp.error with
  | some e => ⟨none, some e.message, some e.code⟩
  | none => ⟨some (resp.data.getD []), none, none⟩

/-- `getReceivedTransfers`: the `eq("payer_wallet_address", _)` filter
value. -/
def getReceivedTransfersFilter (recipientWalletAddress : String) : String :=
  jsToLower recipientWalletAddress

/-- `getReceivedTransfers`: the result built from the response. -/
def getReceivedTransfersResult (resp : SbResp (List PaymentRequest)) :
    QueryResult (List PaymentRequest) :=
  match resp.error with
  | some e => ⟨none, some e.message, some e.code⟩
  | none => ⟨some (resp.data.getD []), none, none⟩

structure CreatePaymentRequestParams where
  requesterId : String
  payerWalletAddress : String
  amount : Int
  memo : Option String
deriving DecidableEq

/-- The row `createPaymentRequest` inserts; `status` and `type` are not in
the payload, so the database defaults (`pending`, `request`) apply. -/
structure PaymentRequestInsertRow where
  requester_id : String
  payer_wallet_address : String
  amount : Int
  memo : Option String
deriving DecidableEq

/-- `createPaymentRequest`: the insert payload (the payer address is
lowercased, the memo falls back to `null`). -/
def createPaymentRequestRow (params : CreatePaymentRequestParams) : PaymentRequestInsertRow :=
  { requester_id := params.requesterId
    payer_wallet_address := jsToLower params.payerWalletAddress
    amount := params.amount
    memo := if strTruthy params.memo then params.memo else none }

/-- `createPaymentRequest`: the result built from the response. -/
def createPaymentRequestResult (resp : SbResp PaymentRequest) : QueryResult PaymentRequest :=
  match resp.error with
  | some e => ⟨none, some e.message, some e.code⟩
  | none => ⟨resp.data, none, none⟩

/-- The statuses `updatePaymentRequestStatus` accepts:
`"paid" | "cancelled" | "rejected"`. -/
inductive UpdStatus where
  | paid : UpdStatus
  | cancelled : UpdStatus
  | rejected : UpdStatus
deriving DecidableEq

def UpdStatus.toStatus : UpdStatus → Status
  | UpdStatus.paid => Status.paid
  | UpdStatus.cancelled => Status.cancelled
  | UpdStatus.rejected => Status.rejected

/-- The update payload `updatePaymentRequestStatus` builds: a column that is
`none` is not part of the payload and stays untouched in the row. -/
structure UpdateData where
  status : UpdStatus
  updated_at : String
  tx_hash : Option String
  paid_at : Option String
deriving DecidableEq

/-- `updatePaymentRequestStatus`: the `updateData` object. `status` and
`updated_at` are always set; `tx_hash` and `paid_at` are added only when
the status is `paid` and `txHash` is truthy (`params.txHash` is a JS
truthiness test, so an absent hash adds nothing). `now` stands for
`new Date().toISOString()`. -/
def updatePaymentRequestStatusUpdateData (status : UpdStatus) (txHash : Option String)
    (now : String) : UpdateData :=
  if status = UpdStatus.paid ∧ strTruthy txHash = true then
    ⟨status, now, txHash, some now⟩
  else
    ⟨status, now, none, none⟩

/-- `updatePaymentRequestStatus`: the result built from the response. -/
def updatePaymentRequestStatusResult (resp : SbResp PaymentRequest) : QueryResult PaymentRequest :=
  match resp.error with
  | some e => ⟨none, some e.message, some e.code⟩
  | none => ⟨resp.data, none, none⟩

/-- Apply an update payload to a `payment_requests` row: columns present in
the payload are overwritten, all others keep their value. -/
def applyUpdateData (r : PaymentRequest) (u : UpdateData) : PaymentRequest :=
  { r with
    status := u.status.toStatus
    updated_at := u.updated_at
    tx_hash := match u.tx_hash with | some h => some h | none => r.tx_hash
    paid_at := match u.paid_at with | some p => some p | none => r.paid_at }

structure DirectTransferParams where
  senderId : String
  recipientWalletAddress : String
  amount : Int
  memo : Option String
  txHash : String
deriving DecidableEq

/-- The row `createDirectTransfer` inserts: a `transfer`-typed row created
already `paid`, with `tx_hash` and `paid_at` set at insert time. -/
structure TransferInsertRow where
  requester_id : String
  type : PaymentRequestType
  payer_wallet_address : String
  amount : Int
  memo : Option String
  status : Status
  tx_hash : String
  paid_at : String
deriving DecidableEq

/-- `createDirectTransfer`: the insert payload. -/
def createDirectTransferRow (params : DirectTransferParams) (now : String) : TransferInsertRow :=
  { requester_id := params.senderId
    type := PaymentRequestType.transfer
    payer_wallet_address := jsToLower params.recipientWalletAddress
    amount := params.amount
    memo := if strTruthy params.memo then params.memo else none
    status := Status.paid
    tx_hash := params.txHash
    paid_at := now }

/-- `createDirectTransfer`: the result built from the response. -/
def createDirectTransferResult (resp : SbResp PaymentRequest) : QueryResult PaymentRequest :=
  match resp.error with
  | some e => ⟨none, some e.message, some e.code⟩
  | none => ⟨resp.data, none, none⟩

/-- `updateHistoryFilterPreference`: the result built from the response. -/
def updateHistoryFilterPreferenceResult (resp : SbResp Profile) : QueryResult Profile :=
  match resp.error with
  | some e => ⟨none, some e.message, some e.code⟩
  | none => ⟨resp.data, none, none⟩

/-! ## C4: updatePaymentRequestStatus write discipline -/

/-- C4: `updatePaymentRequestStatus` always sets the given status and
refreshes `updated_at`; `tx_hash` and `paid_at` are part of the update
exactly when the status is `paid` and a (truthy) `txHash` is given, and so
they are always written together; any other update leaves the row's
`tx_hash` and `paid_at` untouched. -/
theorem updatePaymentRequestStatus_write_spec (st : UpdStatus) (txHash : Option String)
    (now : String) (r : PaymentRequest) :
    (updatePaymentRequestStatusUpdateData st txHash now).status = st ∧
    (updatePaymentRequestStatusUpdateData st txHash now).updated_at = now ∧
    ((updatePaymentRequestStatusUpdateData st txHash now).tx_hash ≠ none ↔
      (st = UpdStatus.paid ∧ strTruthy txHash = true)) ∧
    ((updatePaymentRequestStatusUpdateData st txHash now).paid_at ≠ none ↔
      (st = UpdStatus.paid ∧ strTruthy txHash = true)) ∧
    ((updatePaymentRequestStatusUpdateData st txHash now).tx_hash = none ↔
      (updatePaymentRequestStatusUpdateData st txHash now).paid_at = none) ∧
    (applyUpdateData r (updatePaymentRequestStatusUpdateData st txHash now)).status =
      st.toStatus ∧
    (applyUpdateData r (updatePaymentRequestStatusUpdateData st txHash now)).updated_at = now ∧
    (st = UpdStatus.paid ∧ strTruthy txHash = true →
      (applyUpdateData r (updatePaymentRequestStatusUpdateData st txHash now)).tx_hash = txHash ∧
      (applyUpdateData r (updatePaymentRequestStatusUpdateData st txHash now)).paid_at =
        some now) ∧
    (¬(st = UpdStatus.paid ∧ strTruthy txHash = true) →
      (applyUpdateData r (updatePaymentRequestStatusUpdateData st txHash now)).tx_hash =
        r.tx_hash ∧
      (applyUpdateData r (updatePaymentRequestStatusUpdateData st txHash now)).paid_at =
        r.paid_at) := by
  by_cases hc : st = UpdStatus.paid ∧ strTruthy txHash = true
  · obtain ⟨hst, htx⟩ := hc
    cases txHash with
    | none => simp [strTruthy] at htx
    | some h =>
      simp [updatePaymentRequestStatusUpdateData, applyUpdateData, hst, htx]
  · simp only [updatePaymentRequestStatusUpdateData, if_neg hc, applyUpdateData]
    simp [hc]

/-! ## C7: lowercase normalization of wallet addresses -/

/-- C7: `createContact` and `createPaymentRequest` lowercase the
counterparty address before insertion, `getProfileByWallet` /
`getProfileIdByWallet` look up by the lowercased input, and therefore a
look-up with any case variant of an address produces exactly the key under
which the row was stored. -/
theorem wallet_address_lowercase_normalization (p : CreateContactParams)
    (q : CreatePaymentRequestParams) (w w' : String) :
    (createContactRow p).contact_wallet_address = jsToLower p.contactWalletAddress ∧
    (createPaymentRequestRow q).payer_wallet_address = jsToLower q.payerWalletAddress ∧
    getProfileByWalletFilter w = jsToLower w ∧
    getProfileIdByWalletFilter w = jsToLower w ∧
    (jsToLower w' = jsToLower w →
      getProfileByWalletFilter w' = jsToLower w ∧
      getProfileIdByWalletFilter w' = jsToLower w) ∧
    (jsToLower w' = jsToLower q.payerWalletAddress →
      getIncomingPaymentRequestsFilter w' = (createPaymentRequestRow q).payer_wallet_address) := by
  refine ⟨rfl, rfl, rfl, rfl, fun h => ⟨h, h⟩, fun h => h⟩

/-! ## C10: error discipline of the query layer -/

/-- The discipline every non-profile query function follows: success gives
`error = errorCode = none`, failure copies the backend message and code
with `data = none`, and `data` and `error` are never both non-null. -/
def plainResultOk {α : Type} (f : SbResp α → QueryResult α) : Prop :=
  ∀ resp : SbResp α,
    (resp.error = none → (f resp).error = none ∧ (f resp).errorCode = none) ∧
    (∀ e, resp.error = some e → f resp = ⟨none, some e.message, some e.code⟩) ∧
    ¬((f resp).data ≠ none ∧ (f resp).error ≠ none)

/-- The discipline of the two profile look-ups: like `plainResultOk`, except
that a no-rows failure is reported as `data = none` with `error = none`. -/
def profileResultOk {α : Type} (f : SbResp α → QueryResult α) : Prop :=
  ∀ resp : SbResp α,
    (resp.error = none → (f resp).error = none ∧ (f resp).errorCode = none) ∧
    (∀ e, resp.error = some e → isNoRowsError (some e.code) = true →
      f resp = ⟨none, none, none⟩) ∧
    (∀ e, resp.error = some e → isNoRowsError (some e.code) = false →
      f resp = ⟨none, some e.message, some e.code⟩) ∧
    ¬((f resp).data ≠ none ∧ (f resp).error ≠ none)

theorem getProfileByWalletResult_ok : profileResultOk getProfileByWalletResult := by
  intro resp
  cases h : resp.error with
  | none => simp [getProfileByWalletResult, h]
  | some e =>
    by_cases hnr : isNoRowsError (some e.code) = true
    · simp [getProfileByWalletResult, h, hnr]
    · simp only [Bool.not_eq_true] at hnr
      simp [getProfileByWalletResult, h, hnr]

theorem getProfileIdByWalletResult_ok : profileResultOk getProfileIdByWalletResult := by
  intro resp
  cases h : resp.error with
  | none => simp [getProfileIdByWalletResult, h]
  | some e =>
    by_cases hnr : isNoRowsError (some e.code) = true
    · simp [getProfileIdByWalletResult, h, hnr]
    · simp only [Bool.not_eq_true] at hnr
      simp [getProfileIdByWalletResult, h, hnr]

theorem getContactsByOwnerIdResult_ok : plainResultOk getContactsByOwnerIdResult := by
  intro resp
  cases h : resp.error with
  | none => simp [getContactsByOwnerIdResult, h]
  | some e => simp [getContactsByOwnerIdResult, h]

theorem createContactResult_ok : plainResultOk createContactResult := by
  intro resp
  cases h : resp.error with
  | none => simp [createContactResult, h]
  | some e => simp [createContactResult, h]

theorem getIncomingPaymentRequestsResult_ok : plainResultOk getIncomingPaymentRequestsResult := by
  intro resp
  cases h : resp.error with
  | none => simp [getIncomingPaymentRequestsResult, h]
  | some e => simp [getIncomingPaymentRequestsResult, h]

theorem getSentPaymentRequestsResult_ok : plainResultOk getSentPaymentRequestsResult := by
  intro resp
  cases h : resp.error with
  | none => simp [getSentPaymentRequestsResult, h]
  | some e => simp [getSentPaymentRequestsResult, h]

theorem getSentTransfersResult_ok : plainResultOk getSentTransfersResult := by
  intro resp
  cases h : resp.error with
  | none => simp [getSentTransfersResult, h]
  | some e => simp [getSentTransfersResult, h]

theorem getReceivedTransfersResult_ok : plainResultOk getReceivedTransfersResult := by
  intro resp
  cases h : resp.error with
  | none => simp [getReceivedTransfersResult, h]
  | some e => simp [getReceivedTransfersResult, h]

theorem createPaymentRequestResult_ok : plainResultOk createPaymentRequestResult := by
  intro resp
  cases h : resp.error with
  | none => simp [createPaymentRequestResult, h]
  | some e => simp [createPaymentRequestResult, h]

theorem updatePaymentRequestStatusResult_ok : plainResultOk updatePaymentRequestStatusResult := by
  intro resp
  cases h : resp.error with
  | none => simp [updatePaymentRequestStatusResult, h]
  | some e => simp [updatePaymentRequestStatusResult, h]

theorem createDirectTransferResult_ok : plainResultOk createDirectTransferResult := by
  intro resp
  cases h : resp.error with
  | none => simp [createDirectTransferResult, h]
  | some e => simp [createDirectTransferResult, h]

theorem updateHistoryFilterPreferenceResult_ok :
    plainResultOk updateHistoryFilterPreferenceResult := by
  intro resp
  cases h : resp.error with
  | none => simp [updateHistoryFilterPreferenceResult, h]
  | some e => simp [updateHistoryFilterPreferenceResult, h]

/-- C10: every query-layer function returns a `QueryResult` whose `data`
and `error` are never both non-null: `error = none` on success, and on
failure `data = none` with the backend message and code copied into
`error` / `errorCode`; the two profile look-ups map a no-rows response to
`data = none` with `error = none`. -/
theorem queryResult_error_discipline :
    profileResultOk getProfileByWalletResult ∧
    profileResultOk getProfileIdByWalletResult ∧
    plainResultOk getContactsByOwnerIdResult ∧
    plainResultOk createContactResult ∧
    plainResultOk getIncomingPaymentRequestsResult ∧
    plainResultOk getSentPaymentRequestsResult ∧
    plainResultOk getSentTransfersResult ∧
    plainResultOk getReceivedTransfersResult ∧
    plainResultOk createPaymentRequestResult ∧
    plainResultOk updatePaymentRequestStatusResult ∧
    plainResultOk createDirectTransferResult ∧
    plainResultOk updateHistoryFilterPreferenceResult ∧
    (∀ err : Option SbError,
      (err = none → deleteContactResult err = ⟨none, none, none⟩) ∧
      (∀ e, err = some e → deleteContactResult err = ⟨none, some e.message, some e.code⟩) ∧
      ¬((deleteContactResult err).data ≠ none ∧ (deleteContactResult err).error ≠ none)) := by
  refine ⟨getProfileByWalletResult_ok, getProfileIdByWalletResult_ok,
    getContactsByOwnerIdResult_ok, createContactResult_ok,
    getIncomingPaymentRequestsResult_ok, getSentPaymentRequestsResult_ok,
    getSentTransfersResult_ok, getReceivedTransfersResult_ok,
    createPaymentRequestResult_ok, updatePaymentRequestStatusResult_ok,
    createDirectTransferResult_ok, updateHistoryFilterPreferenceResult_ok, ?_⟩
  intro err
  cases err with
  | none => simp [deleteContactResult]
  | some e => simp [deleteContactResult]

/-! ## C2: the client's write operations never revert a settled status

The backend table is modelled as a list of rows with unique numeric ids
(the database allocates fresh ids on insert); the client operations that
write to `payment_requests` are creating a request (inserted without a
status, so the schema default `pending` applies), recording a direct
transfer (inserted already `paid`), and `updatePaymentRequestStatus`
(which the pay-confirmation, cancel and reject flows all go through). -/

/-- A stored `payment_requests` row (the generated key is numeric in the
model; the database guarantees freshness on insert). -/
structure DbRow where
  id : Nat
  requester_id : String
  type : PaymentRequestType
  payer_wallet_address : String
  amount : Int
  memo : Option String
  status : Status
  tx_hash : Option String
  paid_at : Option String
  created_at : String
  updated_at : String
deriving DecidableEq

/-- Apply an update payload to a stored row (same semantics as
`applyUpdateData`: only the payload's columns are written). -/
def applyUpdateDataRow (r : DbRow) (u : UpdateData) : DbRow :=
  { r with
    status := u.status.toStatus
    updated_at := u.updated_at
    tx_hash := match u.tx_hash with | some h => some h | none => r.tx_hash
    paid_at := match u.paid_at with | some p => some p | none => r.paid_at }

structure DbState where
  rows : List DbRow
  nextId : Nat
deriving DecidableEq

/-- The row `createPaymentRequest` inserts, with the schema defaults
(`status = pending`, `type = request`) filled in by the database. -/
def newRequestRow (id : Nat) (p : CreatePaymentRequestParams) (now : String) : DbRow :=
  { id := id
    requester_id := p.requesterId
    type := PaymentRequestType.request
    payer_wallet_address := jsToLower p.payerWalletAddress
    amount := p.amount
    memo := if strTruthy p.memo then p.memo else none
    status := Status.pending
    tx_hash := none
    paid_at := none
    created_at := now
    updated_at := now }

/-- The row `createDirectTransfer` inserts: already `paid`. -/
def newTransferRow (id : Nat) (p : DirectTransferParams) (now : String) : DbRow :=
  { id := id
    requester_id := p.senderId
    type := PaymentRequestType.transfer
    payer_wallet_address := jsToLower p.recipientWalletAddress
    amount := p.amount
    memo := if strTruthy p.memo then p.memo else none
    status := Status.paid
    tx_hash := some p.txHash
    paid_at := some now
    created_at := now
    updated_at := now }

/-- The client operations that write to the `payment_requests` table. -/
inductive ClientOp where
  | createRequest (p : CreatePaymentRequestParams) (now : String) : ClientOp
  | createTransfer (p : DirectTransferParams) (now : String) : ClientOp
  | updateStatus (requestId : Nat) (status : UpdStatus) (txHash : Option String)
      (now : String) : ClientOp
deriving DecidableEq

def applyOp (s : DbState) : ClientOp → DbState
  | ClientOp.createRequest p now => ⟨s.rows ++ [newRequestRow s.nextId p now], s.nextId + 1⟩
  | ClientOp.createTransfer p now => ⟨s.rows ++ [newTransferRow s.nextId p now], s.nextId + 1⟩
  | ClientOp.updateStatus requestId st tx now =>
    ⟨s.rows.map fun r =>
      if r.id = requestId then
        applyUpdateDataRow r (updatePaymentRequestStatusUpdateData st tx now)
      else r,
      s.nextId⟩

def applyOps (s : DbState) (ops : List ClientOp) : DbState := ops.foldl applyOp s

/-- The row a given id denotes. -/
def dbLookup (s : DbState) (id : Nat) : Option DbRow :=
  s.rows.find? fun r => r.id = id

/-- Well-formedness: every stored id was allocated below the counter. -/
def DbWf (s : DbState) : Prop := ∀ r ∈ s.rows, r.id < s.nextId

theorem find?_append_left {α : Type} (p : α → Bool) (l₁ l₂ : List α) (a : α)
    (h : l₁.find? p = some a) : (l₁ ++ l₂).find? p = some a := by
  induction l₁ with
  | nil => simp at h
  | cons x xs ih =>
    cases hpx : p x with
    | true => simp_all [List.find?_cons, hpx]
    | false =>
      simp only [List.find?_cons, hpx] at h
      simpa [List.find?_cons, hpx] using ih h

theorem find?_map_id_pres (f : DbRow → DbRow) (hf : ∀ x, (f x).id = x.id)
    (l : List DbRow) (id : Nat) :
    (l.map f).find? (fun r => r.id = id) = (l.find? (fun r => r.id = id)).map f := by
  induction l with
  | nil => simp
  | cons x xs ih =>
    by_cases hx : x.id = id
    · simp [List.find?_cons, hf, hx]
    · simp [List.find?_cons, hf, hx, ih]

theorem updateData_status (st : UpdStatus) (tx : Option String) (now : String) :
    (updatePaymentRequestStatusUpdateData st tx now).status = st := by
  unfold updatePaymentRequestStatusUpdateData
  split <;> rfl

theorem UpdStatus.toStatus_ne_pending (st : UpdStatus) : st.toStatus ≠ Status.pending := by
  cases st <;> simp [UpdStatus.toStatus]

theorem applyOp_preserves_wf (s : DbState) (op : ClientOp) (hwf : DbWf s) :
    DbWf (applyOp s op) := by
  cases op with
  | createRequest p now =>
    intro r hr
    rcases List.mem_append.mp hr with hr | hr
    · exact Nat.lt_succ_of_lt (hwf r hr)
    · simp at hr
      simp only [hr, applyOp, newRequestRow]
      exact Nat.lt_succ_self _
  | createTransfer p now =>
    intro r hr
    rcases List.mem_append.mp hr with hr | hr
    · exact Nat.lt_succ_of_lt (hwf r hr)
    · simp at hr
      simp only [hr, applyOp, newTransferRow]
      exact Nat.lt_succ_self _
  | updateStatus requestId st tx now =>
    intro r hr
    simp only [applyOp, List.mem_map] at hr
    obtain ⟨x, hx, hfx⟩ := hr
    have hid : r.id = x.id := by
      subst hfx
      by_cases h : x.id = requestId <;> simp [h, applyUpdateDataRow]
    rw [hid]
    exact hwf x hx

theorem applyOp_preserves_nonpending (s : DbState) (op : ClientOp) (id : Nat) (r : DbRow)
    (hfind : dbLookup s id = some r) (hnp : r.status ≠ Status.pending) :
    ∃ r', dbLookup (applyOp s op) id = some r' ∧ r'.status ≠ Status.pending := by
  cases op with
  | createRequest p now =>
    exact ⟨r, find?_append_left _ _ _ _ hfind, hnp⟩
  | createTransfer p now =>
    exact ⟨r, find?_append_left _ _ _ _ hfind, hnp⟩
  | updateStatus requestId st tx now =>
    have hf : ∀ x : DbRow,
        ((fun r => if r.id = requestId then
          applyUpdateDataRow r (updatePaymentRequestStatusUpdateData st tx now)
        else r) x).id = x.id := by
      intro x
      by_cases h : x.id = requestId <;> simp [h, applyUpdateDataRow]
    have hmap : dbLookup (applyOp s (ClientOp.updateStatus requestId st tx now)) id =
        some (if r.id = requestId then
          applyUpdateDataRow r (updatePaymentRequestStatusUpdateData st tx now)
        else r) := by
      show (s.rows.map _).find? _ = _
      rw [find?_map_id_pres _ hf s.rows id,
        show s.rows.find? (fun x => x.id = id) = some r from hfind]
      rfl
    refine ⟨_, hmap, ?_⟩
    by_cases h : r.id = requestId
    · simp only [h, if_pos rfl, applyUpdateDataRow, updateData_status]
      exact UpdStatus.toStatus_ne_pending st
    · simp only [if_neg h]
      exact hnp

/-- C2: once a request's status is `paid`, `cancelled` or `rejected`, no
sequence of client write operations ever takes it back to `pending`: the
inserts only create fresh rows, and `updatePaymentRequestStatus` only
accepts `paid`, `cancelled` and `rejected`, each of which maps to a
non-`pending` stored status. -/
theorem status_never_reverts_to_pending (s : DbState) (ops : List ClientOp) (id : Nat)
    (r : DbRow) (hwf : DbWf s) (hfind : dbLookup s id = some r)
    (hnp : r.status ≠ Status.pending) :
    (∃ r', dbLookup (applyOps s ops) id = some r' ∧ r'.status ≠ Status.pending) ∧
    (∀ st : UpdStatus, st.toStatus = Status.paid ∨ st.toStatus = Status.cancelled ∨
      st.toStatus = Status.rejected) := by
  constructor
  · induction ops generalizing s r with
    | nil => exact ⟨r, hfind, hnp⟩
    | cons op rest ih =>
      obtain ⟨r', h1, h2⟩ := applyOp_preserves_nonpending s op id r hfind hnp
      exact ih (applyOp s op) r' (applyOp_preserves_wf s op hwf) h1 h2
  · intro st
    cases st <;> simp [UpdStatus.toStatus]

/-- A paid row, a cancel update and a fresh insert: the settled row stays
settled, discharging the hypotheses of `status_never_reverts_to_pending`
at a concrete state. -/
theorem status_never_reverts_to_pending_witness :
    (∃ r', dbLookup (applyOps
        ⟨[⟨0, "profile-1", PaymentRequestType.request, "0xabc", 5000000, none,
          Status.paid, some "0xhash", some "t1", "t0", "t1"⟩], 1⟩
        [ClientOp.updateStatus 0 UpdStatus.cancelled none "t2",
          ClientOp.createRequest ⟨"profile-2", "0xDEF", 250000, none⟩ "t3"]) 0 = some r' ∧
      r'.status ≠ Status.pending) ∧
    (∀ st : UpdStatus, st.toStatus = Status.paid ∨ st.toStatus = Status.cancelled ∨
      st.toStatus = Status.rejected) :=
  status_never_reverts_to_pending _ _ 0 _
    (by intro r hr; simp at hr; simp [hr])
    (by rfl)
    (by simp)

/-! ## C3: the payment-confirmation effect issues exactly one update

`app/page.tsx` keeps the id of the request being paid both in React state
(`payingRequestId`) and in a ref (`payingRequestIdRef`); the
confirmation-observing `useEffect` reads `payingRequestIdRef.current ||
payingRequestId`, and the `updatePaymentRequestStatus` callback it invokes
clears both after issuing the `status = "paid"` write. Each effect run is
modelled as one atomic step collecting the issued calls. -/

/-- One recorded `updatePaymentRequestStatus` query-layer call. -/
structure StatusUpdateCall where
  requestId : String
  status : UpdStatus
  txHash : Option String
deriving DecidableEq

structure PayConfirmState where
  payingRequestId : Option String
  payingRequestIdRef : Option String
  updateCalls : List StatusUpdateCall
deriving DecidableEq

/-- `payPaymentRequest` stores the paying request id in both the state and
the ref before submitting the transfer. -/
def startPaying (requestId : String) (s : PayConfirmState) : PayConfirmState :=
  { s with payingRequestId := some requestId, payingRequestIdRef := some requestId }

/-- What the wallet SDK's `useCallsStatus` reports: whether the status is
`success`, and the first receipt's transaction hash. -/
structure CallsStatus where
  isConfirmed : Bool
  txHash : Option String
deriving DecidableEq

/-- One run of the confirmation `useEffect` together with the
`updatePaymentRequestStatus` callback it calls: when the transaction is
confirmed with a hash and a paying-request id is still set, issue the
`paid` update and clear the id from both the state and the ref; otherwise
do nothing. -/
def confirmationEffect (cs : CallsStatus) (s : PayConfirmState) : PayConfirmState :=
  let requestId := jsOrElse s.payingRequestIdRef s.payingRequestId
  if cs.isConfirmed = true ∧ strTruthy cs.txHash = true ∧ strTruthy requestId = true then
    { payingRequestId := none
      payingRequestIdRef := none
      updateCalls := s.updateCalls ++ [⟨requestId.getD "", UpdStatus.paid, cs.txHash⟩] }
  else s

/-- C3: once a request is being paid and the wallet SDK reports success
with a transaction hash, any positive number of firings of the
confirmation effect issues exactly one `updatePaymentRequestStatus` call,
with status `paid` and that hash, for that request id: the clearing of the
paying-request id guards every later firing. -/
theorem payment_confirmation_single_update (id hash : String) (s0 : PayConfirmState)
    (n : Nat) (hid : id ≠ "") (hhash : hash ≠ "") (hcalls : s0.updateCalls = [])
    (hn : 1 ≤ n) :
    ((confirmationEffect ⟨true, some hash⟩)^[n] (startPaying id s0)).updateCalls =
      [⟨id, UpdStatus.paid, some hash⟩] := by
  obtain ⟨k, rfl⟩ : ∃ k, n = k + 1 := ⟨n - 1, (Nat.succ_pred_eq_of_pos hn).symm⟩
  have hstep : confirmationEffect ⟨true, some hash⟩ (startPaying id s0) =
      ⟨none, none, [⟨id, UpdStatus.paid, some hash⟩]⟩ := by
    simp [confirmationEffect, startPaying, jsOrElse, strTruthy, hid, hhash, hcalls]
  have hdone : confirmationEffect ⟨true, some hash⟩
      (⟨none, none, [⟨id, UpdStatus.paid, some hash⟩]⟩ : PayConfirmState) =
      ⟨none, none, [⟨id, UpdStatus.paid, some hash⟩]⟩ := by
    simp [confirmationEffect, jsOrElse, strTruthy]
  have hfix : ∀ m : Nat, (confirmationEffect ⟨true, some hash⟩)^[m]
      (⟨none, none, [⟨id, UpdStatus.paid, some hash⟩]⟩ : PayConfirmState) =
      ⟨none, none, [⟨id, UpdStatus.paid, some hash⟩]⟩ := by
    intro m
    induction m with
    | zero => rfl
    | succ m ih => rw [Function.iterate_succ_apply, hdone, ih]
  rw [Function.iterate_succ_apply, hstep, hfix]

/-- Paying request `req-1`, the SDK reporting success with hash
`0xdeadbeef`, and the effect firing twice: exactly one `paid` update is
issued, discharging the hypotheses of
`payment_confirmation_single_update` at a concrete input. -/
theorem payment_confirmation_single_update_witness :
    ((confirmationEffect ⟨true, some "0xdeadbeef"⟩)^[2]
      (startPaying "req-1" ⟨none, none, []⟩)).updateCalls =
      [⟨"req-1", UpdStatus.paid, some "0xdeadbeef"⟩] :=
  payment_confirmation_single_update "req-1" "0xdeadbeef" ⟨none, none, []⟩ 2
    (by decide) (by decide) rfl (by decide)

/-! ## C5: cancel/reject authorization guards (`RequestsTab.tsx`) -/

inductive CancelAction where
  | reject : CancelAction
  | cancel : CancelAction
deriving DecidableEq

/-- What one `cancelRequest` invocation does before reloading: the
user-facing error it sets, and the status update it issues (if any). -/
structure CancelOutcome where
  error : Option String
  update : Option StatusUpdateCall
deriving DecidableEq

/-- `cancelRequest(requestId, action)`: find the request in the loaded
lists, check the authorization guard for the action, and only then issue
the status update (`rejected` for reject, `cancelled` for cancel; no
transaction hash). -/
def cancelRequest (paymentRequests sentRequests : List PaymentRequest)
    (currentWalletAddress : Option String) (requestId : String) (action : CancelAction) :
    CancelOutcome :=
  match (paymentRequests ++ sentRequests).find? (fun r => r.id = requestId) with
  | none => ⟨some "Request not found", none⟩
  | some request =>
    if action = CancelAction.reject ∧
        some request.payer_wallet_address ≠ currentWalletAddress.map jsToLower then
      ⟨some "You can only reject requests sent to you", none⟩
    else if action = CancelAction.cancel ∧
        sentRequests.any (fun r => r.id = requestId) = false then
      ⟨some "You can only cancel requests you created", none⟩
    else
      ⟨none, some ⟨requestId,
        if action = CancelAction.reject then UpdStatus.rejected else UpdStatus.cancelled,
        none⟩⟩

/-- C5: for a request present in the loaded lists, reject fails with an
authorization error and issues no update when the acting wallet's
lowercased address is not the request's `payer_wallet_address`, and cancel
fails likewise when the request is not among the acting wallet's sent
requests (i.e. the acting wallet is not its requester); when the guard
passes, the status update is issued. -/
theorem cancelRequest_authorization (paymentRequests sentRequests : List PaymentRequest)
    (wallet : Option String) (requestId : String) (request : PaymentRequest)
    (hfind : (paymentRequests ++ sentRequests).find? (fun r => r.id = requestId) =
      some request) :
    (some request.payer_wallet_address ≠ wallet.map jsToLower →
      cancelRequest paymentRequests sentRequests wallet requestId CancelAction.reject =
        ⟨some "You can only reject requests sent to you", none⟩) ∧
    (sentRequests.any (fun r => r.id = requestId) = false →
      cancelRequest paymentRequests sentRequests wallet requestId CancelAction.cancel =
        ⟨some "You can only cancel requests you created", none⟩) ∧
    (some request.payer_wallet_address = wallet.map jsToLower →
      cancelRequest paymentRequests sentRequests wallet requestId CancelAction.reject =
        ⟨none, some ⟨requestId, UpdStatus.rejected, none⟩⟩) ∧
    (sentRequests.any (fun r => r.id = requestId) = true →
      cancelRequest paymentRequests sentRequests wallet requestId CancelAction.cancel =
        ⟨none, some ⟨requestId, UpdStatus.cancelled, none⟩⟩) := by
  refine ⟨fun hne => ?_, fun hnotsent => ?_, fun heq => ?_, fun hsent => ?_⟩
  · simp [cancelRequest, hfind, hne]
  · simp [cancelRequest, hfind, hnotsent]
  · simp [cancelRequest, hfind, heq]
  · simp [cancelRequest, hfind, hsent]

/-- A loaded pending request from a different wallet: reject by the wrong
wallet fails, cancel of a request not in the sent list fails, and reject
by the payer succeeds, discharging the hypotheses of
`cancelRequest_authorization` at a concrete input. -/
theorem cancelRequest_authorization_witness :
    (some "0xpayer" ≠ (some "0xMALLORY").map jsToLower →
      cancelRequest [⟨"r1", "p1", PaymentRequestType.request, "0xpayer", "0xtoken", 8453,
          1000000, none, Status.pending, none, none, none, "t0", "t0", some "0xreq"⟩] []
        (some "0xMALLORY") "r1" CancelAction.reject =
        ⟨some "You can only reject requests sent to you", none⟩) ∧
    (([] : List PaymentRequest).any (fun r => r.id = "r1") = false →
      cancelRequest [⟨"r1", "p1", PaymentRequestType.request, "0xpayer", "0xtoken", 8453,
          1000000, none, Status.pending, none, none, none, "t0", "t0", some "0xreq"⟩] []
        (some "0xMALLORY") "r1" CancelAction.cancel =
        ⟨some "You can only cancel requests you created", none⟩) ∧
    (some "0xpayer" = (some "0xMALLORY").map jsToLower →
      cancelRequest [⟨"r1", "p1", PaymentRequestType.request, "0xpayer", "0xtoken", 8453,
          1000000, none, Status.pending, none, none, none, "t0", "t0", some "0xreq"⟩] []
        (some "0xMALLORY") "r1" CancelAction.reject =
        ⟨none, some ⟨"r1", UpdStatus.rejected, none⟩⟩) ∧
    (([] : List PaymentRequest).any (fun r => r.id = "r1") = true →
      cancelRequest [⟨"r1", "p1", PaymentRequestType.request, "0xpayer", "0xtoken", 8453,
          1000000, none, Status.pending, none, none, none, "t0", "t0", some "0xreq"⟩] []
        (some "0xMALLORY") "r1" CancelAction.cancel =
        ⟨none, some ⟨"r1", UpdStatus.cancelled, none⟩⟩) :=
  cancelRequest_authorization
    [⟨"r1", "p1", PaymentRequestType.request, "0xpayer", "0xtoken", 8453,
      1000000, none, Status.pending, none, none, none, "t0", "t0", some "0xreq"⟩] []
    (some "0xMALLORY") "r1"
    ⟨"r1", "p1", PaymentRequestType.request, "0xpayer", "0xtoken", 8453,
      1000000, none, Status.pending, none, none, none, "t0", "t0", some "0xreq"⟩
    (by with_unfolding_all rfl)

/-! ## C6: the history computation (`allHistory`, RequestsTab.tsx)

The completed entries of both loaded lists are tagged with a direction,
de-duplicated by id (first occurrence kept, so an entry present in both
lists keeps its `received` tag), run through the history filter, and
sorted descending by `paid_at` for paid entries (falling back to
`created_at`) and by `created_at` otherwise. `new Date(_).getTime()` is
abstracted as a function from timestamp strings to integers. -/

inductive Direction where
  | received : Direction
  | sent : Direction
deriving DecidableEq

structure HistoryEntry where
  request : PaymentRequest
  direction : Direction
deriving DecidableEq

/-- The `seenIds`-based de-duplication filter: keep an entry only when its
id has not been seen before. -/
def dedupById (seen : List String) : List HistoryEntry → List HistoryEntry
  | [] => []
  | e :: rest =>
    if e.request.id ∈ seen then dedupById seen rest
    else e :: dedupById (e.request.id :: seen) rest

/-- `isContact`: whether an (optional) address is in the contact list,
compared case-insensitively. -/
def isContactAddress (contacts : List Contact) (address : Option String) : Bool :=
  match address with
  | none => false
  | some a => contacts.any fun c => jsToLower c.contact_wallet_address = jsToLower a

/-- The counterparty address of a history entry: the payer for a sent
entry, the requester's joined wallet for a received one. -/
def historyOtherAddress (e : HistoryEntry) : Option String :=
  match e.direction with
  | Direction.sent => some e.request.payer_wallet_address
  | Direction.received => e.request.profiles

/-- The history-filter predicate (`all` / `contacts-only` /
`external-only`). -/
def historyFilterPass (filter : HistoryFilterType) (contacts : List Contact)
    (e : HistoryEntry) : Bool :=
  match filter with
  | HistoryFilterType.all => true
  | HistoryFilterType.contactsOnly => isContactAddress contacts (historyOtherAddress e)
  | HistoryFilterType.externalOnly => !isContactAddress contacts (historyOtherAddress e)

/-- The sort key: `paid_at` when the entry is paid and `paid_at` is truthy,
else `created_at` (the comparator's `a.status === "paid" && a.paid_at ?
a.paid_at : a.created_at`). -/
def historySortKey (e : HistoryEntry) : String :=
  if e.request.status = Status.paid ∧ strTruthy e.request.paid_at = true then
    e.request.paid_at.getD ""
  else e.request.created_at

/-- `allHistory`: merge, de-duplicate, filter and sort the completed
entries of the two loaded lists. -/
def allHistory (paymentRequests sentRequests : List PaymentRequest)
    (filter : HistoryFilterType) (contacts : List Contact) (getTime : String → Int) :
    List HistoryEntry :=
  let completedIncoming := (paymentRequests.filter fun pr => pr.status ≠ Status.pending).map
    fun pr => HistoryEntry.mk pr Direction.received
  let completedSent := (sentRequests.filter fun pr => pr.status ≠ Status.pending).map
    fun pr => HistoryEntry.mk pr Direction.sent
  let deduped := dedupById [] (completedIncoming ++ completedSent)
  let filtered := deduped.filter (historyFilterPass filter contacts)
  filtered.mergeSort fun a b =>
    decide (getTime (historySortKey b) ≤ getTime (historySortKey a))

theorem dedupById_subset (seen : List String) (l : List HistoryEntry) (e : HistoryEntry)
    (he : e ∈ dedupById seen l) : e ∈ l := by
  induction l generalizing seen with
  | nil => simp [dedupById] at he
  | cons x xs ih =>
    by_cases hx : x.request.id ∈ seen
    · simp only [dedupById, if_pos hx] at he
      exact List.mem_cons_of_mem _ (ih _ he)
    · simp only [dedupById, if_neg hx, List.mem_cons] at he
      rcases he with he | he
      · exact he ▸ List.mem_cons_self _ _
      · exact List.mem_cons_of_mem _ (ih _ he)

theorem dedupById_notMem_seen (seen : List String) (l : List HistoryEntry)
    (e : HistoryEntry) (he : e ∈ dedupById seen l) : e.request.id ∉ seen := by
  induction l generalizing seen with
  | nil => simp [dedupById] at he
  | cons x xs ih =>
    by_cases hx : x.request.id ∈ seen
    · simp only [dedupById, if_pos hx] at he
      exact ih _ he
    · simp only [dedupById, if_neg hx, List.mem_cons] at he
      rcases he with he | he
      · exact he ▸ hx
      · intro hmem
        exact ih _ he (List.mem_cons_of_mem _ hmem)

theorem dedupById_pairwise_ne (seen : List String) (l : List HistoryEntry) :
    (dedupById seen l).Pairwise fun a b => a.request.id ≠ b.request.id := by
  induction l generalizing seen with
  | nil => simp [dedupById]
  | cons x xs ih =>
    by_cases hx : x.request.id ∈ seen
    · simpa only [dedupById, if_pos hx] using ih seen
    · simp only [dedupById, if_neg hx]
      refine List.Pairwise.cons ?_ (ih _)
      intro b hb
      have := dedupById_notMem_seen _ _ _ hb
      intro hEq
      exact this (hEq ▸ List.mem_cons_self _ _)

theorem dedupById_covers (seen : List String) (l : List HistoryEntry) (id : String)
    (hex : ∃ x ∈ l, x.request.id = id) (hseen : id ∉ seen) :
    ∃ e ∈ dedupById seen l, e.request.id = id := by
  induction l generalizing seen with
  | nil => simp at hex
  | cons x xs ih =>
    by_cases hx : x.request.id ∈ seen
    · simp only [dedupById, if_pos hx]
      rcases hex with ⟨y, hy, hyid⟩
      rcases List.mem_cons.mp hy with hy | hy
      · subst hy
        exact absurd (hyid ▸ hx) hseen
      · exact ih _ ⟨y, hy, hyid⟩ hseen
    · simp only [dedupById, if_neg hx]
      by_cases hid : x.request.id = id
      · exact ⟨x, List.mem_cons_self _ _, hid⟩
      · rcases hex with ⟨y, hy, hyid⟩
        rcases List.mem_cons.mp hy with hy | hy
        · exact absurd (hy ▸ hyid) hid
        · have hseen' : id ∉ x.request.id :: seen := by
            simp only [List.mem_cons, not_or]
            exact ⟨fun h => hid h.symm, hseen⟩
          obtain ⟨e, he, heid⟩ := ih (x.request.id :: seen) ⟨y, hy, hyid⟩ hseen'
          exact ⟨e, List.mem_cons_of_mem _ he, heid⟩

theorem countP_eq_one_of_pairwise (l : List HistoryEntry) (id : String)
    (hpw : l.Pairwise fun a b => a.request.id ≠ b.request.id)
    (hex : ∃ e ∈ l, e.request.id = id) :
    l.countP (fun e => e.request.id = id) = 1 := by
  induction l with
  | nil => simp at hex
  | cons x xs ih =>
    rcases List.pairwise_cons.mp hpw with ⟨hx, hxs⟩
    by_cases hid : x.request.id = id
    · have hzero : xs.countP (fun e => e.request.id = id) = 0 := by
        rw [List.countP_eq_zero]
        intro e he
        simp only [decide_eq_true_eq]
        exact fun hEq => hx e he (hid.trans hEq.symm)
      simp [List.countP_cons, hid, hzero]
    · rcases hex with ⟨y, hy, hyid⟩
      rcases List.mem_cons.mp hy with hy | hy
      · exact absurd (hy ▸ hyid) hid
      · have := ih hxs ⟨y, hy, hyid⟩
        simp [List.countP_cons, hid, this]

/-- C6: with the `all` filter, the history computation contains only
non-pending entries of the two loaded lists, each tagged with its
direction; ids are pairwise distinct, and a non-pending request present in
either list (or in both, as when requester and payer are the same wallet)
yields exactly one entry; the result is sorted descending by the key that
is `paid_at` for paid entries (with a set `paid_at`) and `created_at`
otherwise. -/
theorem allHistory_spec (paymentRequests sentRequests : List PaymentRequest)
    (contacts : List Contact) (getTime : String → Int) :
    (∀ e ∈ allHistory paymentRequests sentRequests HistoryFilterType.all contacts getTime,
      e.request.status ≠ Status.pending ∧
      ((e.direction = Direction.received ∧ e.request ∈ paymentRequests) ∨
        (e.direction = Direction.sent ∧ e.request ∈ sentRequests))) ∧
    (allHistory paymentRequests sentRequests HistoryFilterType.all contacts
      getTime).Pairwise (fun a b => a.request.id ≠ b.request.id) ∧
    (∀ r : PaymentRequest, r.status ≠ Status.pending →
      (r ∈ paymentRequests ∨ r ∈ sentRequests) →
      (allHistory paymentRequests sentRequests HistoryFilterType.all contacts
        getTime).countP (fun e => e.request.id = r.id) = 1) ∧
    (allHistory paymentRequests sentRequests HistoryFilterType.all contacts
      getTime).Pairwise (fun a b =>
        getTime (historySortKey b) ≤ getTime (historySortKey a)) ∧
    (∀ e : HistoryEntry,
      (e.request.status = Status.paid ∧ strTruthy e.request.paid_at = true →
        historySortKey e = e.request.paid_at.getD "") ∧
      (¬(e.request.status = Status.paid ∧ strTruthy e.request.paid_at = true) →
        historySortKey e = e.request.created_at)) := by
  have hall : allHistory paymentRequests sentRequests HistoryFilterType.all contacts getTime =
      (dedupById []
        (((paymentRequests.filter fun pr => pr.status ≠ Status.pending).map
            fun pr => HistoryEntry.mk pr Direction.received) ++
          ((sentRequests.filter fun pr => pr.status ≠ Status.pending).map
            fun pr => HistoryEntry.mk pr Direction.sent))).mergeSort
        (fun a b => decide (getTime (historySortKey b) ≤ getTime (historySortKey a))) := by
    unfold allHistory
    have hfp : ∀ l : List HistoryEntry,
        l.filter (historyFilterPass HistoryFilterType.all contacts) = l :=
      fun l => List.filter_eq_self.mpr fun a _ => rfl
    dsimp only
    rw [hfp]
  rw [hall]
  set raw := ((paymentRequests.filter fun pr => pr.status ≠ Status.pending).map
      fun pr => HistoryEntry.mk pr Direction.received) ++
    ((sentRequests.filter fun pr => pr.status ≠ Status.pending).map
      fun pr => HistoryEntry.mk pr Direction.sent) with hraw
  set le := fun a b : HistoryEntry =>
    decide (getTime (historySortKey b) ≤ getTime (historySortKey a)) with hle
  have hperm : ((dedupById [] raw).mergeSort le).Perm (dedupById [] raw) :=
    List.mergeSort_perm _ _
  have hmemraw : ∀ e ∈ raw, e.request.status ≠ Status.pending ∧
      ((e.direction = Direction.received ∧ e.request ∈ paymentRequests) ∨
        (e.direction = Direction.sent ∧ e.request ∈ sentRequests)) := by
    intro e he
    rcases List.mem_append.mp he with he | he
    · obtain ⟨pr, hpr, rfl⟩ := List.mem_map.mp he
      obtain ⟨hmem, hstat⟩ := List.mem_filter.mp hpr
      exact ⟨of_decide_eq_true hstat, Or.inl ⟨rfl, hmem⟩⟩
    · obtain ⟨pr, hpr, rfl⟩ := List.mem_map.mp he
      obtain ⟨hmem, hstat⟩ := List.mem_filter.mp hpr
      exact ⟨of_decide_eq_true hstat, Or.inr ⟨rfl, hmem⟩⟩
  refine ⟨?_, ?_, ?_, ?_, ?_⟩
  · intro e he
    exact hmemraw e (dedupById_subset _ _ _ (hperm.mem_iff.mp he))
  · exact (List.Perm.pairwise_iff (fun {a b} h => (h ∘ Eq.symm)) hperm).mpr
      (dedupById_pairwise_ne [] raw)
  · intro r hnp hmem
    rw [hperm.countP_eq]
    refine countP_eq_one_of_pairwise _ _ (dedupById_pairwise_ne [] raw) ?_
    have hx : ∃ x ∈ raw, x.request.id = r.id := by
      rcases hmem with hmem | hmem
      · exact ⟨HistoryEntry.mk r Direction.received,
          List.mem_append_left _ (List.mem_map.mpr
            ⟨r, List.mem_filter.mpr ⟨hmem, decide_eq_true hnp⟩, rfl⟩), rfl⟩
      · exact ⟨HistoryEntry.mk r Direction.sent,
          List.mem_append_right _ (List.mem_map.mpr
            ⟨r, List.mem_filter.mpr ⟨hmem, decide_eq_true hnp⟩, rfl⟩), rfl⟩
    obtain ⟨e, he, heid⟩ := dedupById_covers [] raw r.id hx (by simp)
    exact ⟨e, he, heid⟩
  · have hs := @List.sorted_mergeSort HistoryEntry le
      (fun a b c hab hbc => by
        simp only [hle, decide_eq_true_eq] at hab hbc ⊢
        exact le_trans hbc hab)
      (fun a b => by
        simp only [hle, Bool.or_eq_true, decide_eq_true_eq]
        exact le_total _ _)
      (dedupById [] raw)
    exact hs.imp fun h => of_decide_eq_true h
  · intro e
    constructor
    · intro hc
      simp [historySortKey, hc]
    · intro hc
      simp [historySortKey, hc]

/-! ## C8: the local cache (src/lib/cache.ts, RequestsTab.tsx, ContactsTab.tsx) -/

def MAX_CACHED_ITEMS : Nat := 20

def CONTACTS_CACHE_KEY : String := "basesplit-contacts"

def REQUESTS_CACHE_KEY : String := "basesplit-requests"

/-- `limitCacheSize`: `items.slice(0, MAX_CACHED_ITEMS)`. -/
def limitCacheSize {α : Type} (items : List α) : List α := items.take MAX_CACHED_ITEMS

/-- The per-wallet localStorage key of the requests cache. -/
def requestsCacheKey (walletAddress : String) : String :=
  REQUESTS_CACHE_KEY ++ "-" ++ jsToLower walletAddress

/-- The per-wallet localStorage key of the contacts cache. -/
def contactsCacheKey (walletAddress : String) : String :=
  CONTACTS_CACHE_KEY ++ "-" ++ jsToLower walletAddress

structure CachedRequests where
  incoming : List PaymentRequest
  sent : List PaymentRequest
deriving DecidableEq

/-- The value `setCachedRequests` stores under the per-wallet requests key:
both lists capped by `limitCacheSize`. -/
def setCachedRequestsValue (incoming sent : List PaymentRequest) : CachedRequests :=
  ⟨limitCacheSize incoming, limitCacheSize sent⟩

/-- The value the contacts loader (`ContactsTab.tsx`) stores under the
per-wallet contacts key: `JSON.stringify(newContacts)` of the full fetched
list, with no cap applied. -/
def contactsCacheValue (contacts : List Contact) : List Contact := contacts

/-- `clearAllCache`: remove every localStorage entry whose key starts with
either cache key. The store is modelled as a key-value list. -/
def clearAllCache {V : Type} (store : List (String × V)) : List (String × V) :=
  store.filter fun kv =>
    !(jsStartsWith kv.1 CONTACTS_CACHE_KEY || jsStartsWith kv.1 REQUESTS_CACHE_KEY)

/-- C8 counterexample: the contacts cache write stores the full fetched
list, so a fetch of 21 contacts caches 21 items, above the fixed cap
of 20. -/
theorem contacts_cache_uncapped_cex :
    (contactsCacheValue (List.replicate 21
      ⟨"c1", "o1", "0xabc", "Alice", none, "t0", "t0"⟩)).length = 21 ∧
    ¬((contactsCacheValue (List.replicate 21
      ⟨"c1", "o1", "0xabc", "Alice", none, "t0", "t0"⟩)).length ≤ MAX_CACHED_ITEMS) := by
  constructor
  · simp [contactsCacheValue]
  · simp [contactsCacheValue, MAX_CACHED_ITEMS]

/-- C8 (amended): the payment-request lists are cached under the
case-normalized per-wallet key with at most 20 items each, keeping the
first (most recent) 20 of the fetched list; the contacts cache write
stores the full fetched list with no cap; and `clearAllCache` removes
every cached contacts and requests entry for all wallets. -/
theorem cache_cap_and_clear (incoming sent : List PaymentRequest) (contacts : List Contact)
    (w : String) (store : List (String × String)) :
    (setCachedRequestsValue incoming sent).incoming = incoming.take MAX_CACHED_ITEMS ∧
    (setCachedRequestsValue incoming sent).sent = sent.take MAX_CACHED_ITEMS ∧
    (setCachedRequestsValue incoming sent).incoming.length ≤ MAX_CACHED_ITEMS ∧
    (setCachedRequestsValue incoming sent).sent.length ≤ MAX_CACHED_ITEMS ∧
    contactsCacheValue contacts = contacts ∧
    requestsCacheKey w = REQUESTS_CACHE_KEY ++ "-" ++ jsToLower w ∧
    contactsCacheKey w = CONTACTS_CACHE_KEY ++ "-" ++ jsToLower w ∧
    jsStartsWith (requestsCacheKey w) REQUESTS_CACHE_KEY = true ∧
    jsStartsWith (contactsCacheKey w) CONTACTS_CACHE_KEY = true ∧
    (∀ kv ∈ clearAllCache store, jsStartsWith kv.1 CONTACTS_CACHE_KEY = false ∧
      jsStartsWith kv.1 REQUESTS_CACHE_KEY = false) ∧
    (∀ kv ∈ clearAllCache store, kv.1 ≠ requestsCacheKey w ∧ kv.1 ≠ contactsCacheKey w) := by
  have hreq : jsStartsWith (requestsCacheKey w) REQUESTS_CACHE_KEY = true := by
    simp only [jsStartsWith, requestsCacheKey, List.isPrefixOf_iff_prefix,
      String.data_append, List.append_assoc]
    exact List.prefix_append _ _
  have hcon : jsStartsWith (contactsCacheKey w) CONTACTS_CACHE_KEY = true := by
    simp only [jsStartsWith, contactsCacheKey, List.isPrefixOf_iff_prefix,
      String.data_append, List.append_assoc]
    exact List.prefix_append _ _
  have hclear : ∀ kv ∈ clearAllCache store,
      jsStartsWith kv.1 CONTACTS_CACHE_KEY = false ∧
      jsStartsWith kv.1 REQUESTS_CACHE_KEY = false := by
    intro kv hkv
    have := (List.mem_filter.mp hkv).2
    simp only [Bool.not_eq_true', Bool.or_eq_false_iff] at this
    exact this
  refine ⟨rfl, rfl, ?_, ?_, rfl, rfl, rfl, hreq, hcon, hclear, ?_⟩
  · simp [setCachedRequestsValue, limitCacheSize]
  · simp [setCachedRequestsValue, limitCacheSize]
  · intro kv hkv
    obtain ⟨hc, hr⟩ := hclear kv hkv
    constructor
    · intro hEq
      rw [hEq] at hr
      rw [hreq] at hr
      exact Bool.true_eq_false.mp hr
    · intro hEq
      rw [hEq] at hc
      rw [hcon] at hc
      exact Bool.true_eq_false.mp hc

/-! ## C9: creating a 0.005 USDC request (`createPaymentRequest`,
RequestsTab.tsx)

The orchestrated create flow is modelled as a pure function from the form
inputs and the remote responses (profile lookup data, insert error) to the
`createError` it sets and the list of remote calls it issues. -/

inductive NetCall where
  | profileLookup (walletFilter : String) : NetCall
  | insertRequest (row : PaymentRequestInsertRow) : NetCall
deriving DecidableEq

structure CreateFlowResult where
  createError : Option String
  calls : List NetCall
deriving DecidableEq

/-- `createPaymentRequest` (RequestsTab.tsx): silently return on missing
inputs; reject amounts below 0.01 or above 10000 before any remote call;
otherwise look up the caller's profile id and insert the request with the
amount in micro-units (`Math.floor(amount * 1e6)`). -/
def createPaymentRequestFlow (currentWalletAddress : Option String)
    (newPayerAddress newAmount newMemo : String)
    (profileData : Option String) (insertError : Option String) : CreateFlowResult :=
  if strTruthy currentWalletAddress = false ∨ newPayerAddress = "" ∨ newAmount = "" then
    ⟨none, []⟩
  else
    let amount := parseFloatJs newAmount
    if amount = JsNum.nan ∨ jsNumLtRat amount (1 / 100) = true then
      ⟨some "Minimum amount is $0.01 USDC", []⟩
    else if jsNumGtRat amount 10000 = true then
      ⟨some "Maximum amount is $10,000 USDC", []⟩
    else
      let wallet := currentWalletAddress.getD ""
      match profileData with
      | none =>
        ⟨some "Profile not found. Please sign in again.",
          [NetCall.profileLookup (getProfileIdByWalletFilter wallet)]⟩
      | some profileId =>
        let amountInMicroUnits := ratFloor (jsNumToRat amount * 1000000)
        let row := createPaymentRequestRow
          ⟨profileId, newPayerAddress, amountInMicroUnits,
            if newMemo = "" then none else some newMemo⟩
        match insertError with
        | some e =>
          ⟨some e,
            [NetCall.profileLookup (getProfileIdByWalletFilter wallet),
              NetCall.insertRequest row]⟩
        | none =>
          ⟨none,
            [NetCall.profileLookup (getProfileIdByWalletFilter wallet),
              NetCall.insertRequest row]⟩

/-- C9 counterexample: creating a request for `0.005` is rejected before
any remote call with the error `Minimum amount is $0.01 USDC` — not with
the doubled message `Minimum amount is $0.01 USDC USDC`. -/
theorem create_request_min_error_cex :
    (createPaymentRequestFlow (some "0xME") "0xPAYER" "0.005" "" none none).createError =
      some "Minimum amount is $0.01 USDC" ∧
    (createPaymentRequestFlow (some "0xME") "0xPAYER" "0.005" "" none none).calls = [] ∧
    (createPaymentRequestFlow (some "0xME") "0xPAYER" "0.005" "" none none).createError ≠
      some "Minimum amount is $0.01 USDC USDC" := by
  refine ⟨?_, ?_, ?_⟩ <;> with_unfolding_all decide

/-- C9 (amended): for any present wallet and payer address, creating a
request for `0.005` USDC fails with `Minimum amount is $0.01 USDC` and
issues no remote call (no profile lookup, no insert). -/
theorem create_request_min_amount_rejected (wallet payer memo : String)
    (profileData insertError : Option String) (hw : wallet ≠ "") (hp : payer ≠ "") :
    createPaymentRequestFlow (some wallet) payer "0.005" memo profileData insertError =
      ⟨some "Minimum amount is $0.01 USDC", []⟩ := by
  have h1 : ¬(strTruthy (some wallet) = false ∨ payer = "" ∨ ("0.005" : String) = "") := by
    simp [strTruthy, hw, hp]
  have hlt : jsNumLtRat (parseFloatJs "0.005") (1 / 100) = true := by
    with_unfolding_all decide
  unfold createPaymentRequestFlow
  dsimp only
  rw [if_neg h1, if_pos (Or.inr hlt)]

/-- Concrete inputs discharging the hypotheses of
`create_request_min_amount_rejected`. -/
theorem create_request_min_amount_rejected_witness :
    createPaymentRequestFlow (some "0xME") "0xPAYER" "0.005" "split dinner" none none =
      ⟨some "Minimum amount is $0.01 USDC", []⟩ :=
  create_request_min_amount_rejected "0xME" "0xPAYER" "split dinner" none none
    (by decide) (by decide)

end BaseSplit
